import Mathlib

/-!
Shallow embedding of `src/data/Graph.js` (echarts graph container) and
verification of the frozen claims about it.

Modelling conventions:
* JavaScript values appearing as node/edge payloads and `addNode` options are
  modelled by `JSVal`: `null`, `undefined`, strings, numbers (as `Int`; every
  number occurring in the claims is integral), and flat objects whose fields
  hold primitive values.  No claim involves nested objects.
* Node and Edge instances are identified by their allocation index into the
  graph's arenas (`nodeArena`, `edgeArena`); "distinct instances" means
  distinct indices.  Object mutation becomes functional record update.
* JS plain objects used as maps (`_nodesMap`, `_edgesMap`) are modelled by
  association lists with overwrite-on-set and remove-on-delete semantics;
  property keys are the JS string coercions of the indexing value (in
  particular `undefined` coerces to the key "undefined").
* A thrown `TypeError` (property assignment on a primitive in strict mode,
  property access on `null`/`undefined`) is modelled by `Except.error ()`.
* The `Model` base class (`../model/Model`) and `zrender/core/util` are not
  under `src/`.  Modelled from the spec: the spec's data model lists exactly
  the fields assigned in `Node.init`/`Edge.init` (`name`, `$option`,
  `edges`, `inEdges`, `outEdges`, and the transient `__visited` marker), so
  `Model.extend({init})` is modelled as a plain constructor running `init`,
  and a `data` property does not exist (reads yield `undefined`).
  `util.indexOf` is the standard first-occurrence index returning -1 when
  absent, as the spec's removal contract describes.
-/

/-- Primitive JavaScript values used by the model. -/
inductive JSPrim where
  | nul
  | undefined
  | str (s : String)
  | num (n : Int)
deriving DecidableEq, Repr

/-- JavaScript values: primitives or flat objects with primitive fields. -/
inductive JSVal where
  | prim (p : JSPrim)
  | obj (fields : List (String × JSPrim))
deriving DecidableEq, Repr

/-- JS truthiness of a primitive. -/
def jsTruthy : JSPrim → Bool
  | .nul => false
  | .undefined => false
  | .str s => s != ""
  | .num n => n != 0

/-- JS string coercion of a primitive, as used for object property keys and
string concatenation (`undefined` becomes "undefined", `null` becomes
"null"). -/
def jsKeyOfPrim : JSPrim → String
  | .nul => "null"
  | .undefined => "undefined"
  | .str s => s
  | .num n => toString n

/-- Read a field of a flat JS object, `undefined` when missing. -/
def jsFieldGet : List (String × JSPrim) → String → JSPrim
  | [], _ => .undefined
  | (k', v) :: t, k => if k' = k then v else jsFieldGet t k

/-- Write a field of a flat JS object (overwrite semantics). -/
def jsFieldSet (fields : List (String × JSPrim)) (k : String) (v : JSPrim) :
    List (String × JSPrim) :=
  (k, v) :: fields.filter (fun p => p.1 != k)

/-- Evaluate `v.name`: a field read on objects, `undefined` on strings and
numbers, a thrown `TypeError` on `null`/`undefined`. -/
def jsDotNameE : JSVal → Except Unit JSPrim
  | .obj fields => .ok (jsFieldGet fields "name")
  | .prim (.str _) => .ok .undefined
  | .prim (.num _) => .ok .undefined
  | .prim .nul => .error ()
  | .prim .undefined => .error ()

/-- `p || ''` on a primitive. -/
def jsOrEmptyStr (p : JSPrim) : JSPrim :=
  if jsTruthy p then p else .str ""

/-- `v || null` on a value (objects are always truthy). -/
def jsOrNull : JSVal → JSVal
  | .obj fields => .obj fields
  | .prim p => if jsTruthy p then .prim p else .prim .nul

/-- A JS object used as a string-keyed map: first-match lookup. -/
def jsMapGet : List (String × Nat) → String → Option Nat
  | [], _ => none
  | (k', v) :: t, k => if k' = k then some v else jsMapGet t k

/-- `m[k] = v` on a JS object used as a map (overwrite semantics). -/
def jsMapSet (m : List (String × Nat)) (k : String) (v : Nat) :
    List (String × Nat) :=
  (k, v) :: m.filter (fun p => p.1 != k)

/-- `delete m[k]` on a JS object used as a map. -/
def jsMapDel (m : List (String × Nat)) (k : String) : List (String × Nat) :=
  m.filter (fun p => p.1 != k)

/-- `util.indexOf`: index of the first occurrence, -1 when absent. -/
def jsIndexOf {α : Type} [DecidableEq α] (a : α) : List α → Int
  | [] => -1
  | b :: t =>
    if b = a then 0
    else if jsIndexOf a t < 0 then -1 else jsIndexOf a t + 1

/-- `arr.splice(idx, 1)`: remove one element at `idx`, counting from the end
when `idx` is negative, a no-op past the end (JS `Array.prototype.splice`
with delete-count 1). -/
def jsSplice1 {α : Type} (l : List α) (idx : Int) : List α :=
  let s : Nat := if idx < 0 then ((l.length : Int) + idx).toNat
                 else min idx.toNat l.length
  l.take s ++ l.drop (s + 1)

/-- A Node instance: the fields assigned by `Node.init` (`this.name`,
`this.$option`, `this.inEdges`, `this.outEdges`, `this.edges`) plus the
transient `__visited` marker (initially absent, i.e. falsy).  `name` keeps
the raw primitive `option.name || ''` stores. -/
structure NodeRec where
  name : JSPrim
  opt : JSVal
  inEdges : List Nat
  outEdges : List Nat
  edges : List Nat
  visited : Bool
deriving DecidableEq, Repr

/-- An Edge instance: `node1`, `node2` (node ids) and `$option`. -/
structure EdgeRec where
  node1 : Nat
  node2 : Nat
  opt : JSVal
deriving DecidableEq, Repr

/-- Placeholder record for a dangling node reference; never reached by any
execution in this file. -/
def dfltNode : NodeRec :=
  { name := .str "", opt := .prim .undefined, inEdges := [], outEdges := [],
    edges := [], visited := false }

/-- Placeholder record for a dangling edge reference; never reached by any
execution in this file. -/
def dfltEdge : EdgeRec := { node1 := 0, node2 := 0, opt := .prim .undefined }

/-- The Graph object: `_directed`, the live `nodes` and `edges` sequences
(as lists of arena ids), the `_nodesMap` and `_edgesMap` JS-object indices,
and the two arenas giving every ever-created Node/Edge instance its
identity. -/
structure GraphState where
  directed : Bool
  nodes : List Nat
  edges : List Nat
  nodesMap : List (String × Nat)
  edgesMap : List (String × Nat)
  nodeArena : List NodeRec
  edgeArena : List EdgeRec
deriving DecidableEq, Repr

/-- `new Graph(directed)`. -/
def GraphNew (directed : Bool) : GraphState :=
  { directed := directed, nodes := [], edges := [], nodesMap := [],
    edgesMap := [], nodeArena := [], edgeArena := [] }

/-- Dereference a node id. -/
def nodeOf (g : GraphState) (nid : Nat) : NodeRec :=
  g.nodeArena.getD nid dfltNode

/-- Dereference an edge id. -/
def edgeOf (g : GraphState) (eid : Nat) : EdgeRec :=
  g.edgeArena.getD eid dfltEdge

/-- Mutate the node record behind an id. -/
def modifyNode (g : GraphState) (nid : Nat) (f : NodeRec → NodeRec) :
    GraphState :=
  { g with nodeArena := g.nodeArena.set nid (f (nodeOf g nid)) }

/-- Mutate the edge record behind an id. -/
def modifyEdge (g : GraphState) (eid : Nat) (f : EdgeRec → EdgeRec) :
    GraphState :=
  { g with edgeArena := g.edgeArena.set eid (f (edgeOf g eid)) }

/-- The string the node's `name` contributes to a pair key (`n1.name` is
concatenated with `'-'`, coercing the primitive to a string). -/
def nodeKeyName (g : GraphState) (nid : Nat) : String :=
  jsKeyOfPrim (nodeOf g nid).name

/-- The `_edgesMap` key `n1.name + '-' + n2.name`. -/
def pairKey (g : GraphState) (n1 n2 : Nat) : String :=
  nodeKeyName g n1 ++ "-" ++ nodeKeyName g n2

/-- An argument that is a node name, a Node reference, or `undefined`
(`undefined` arises from `graph.nodes[i]` reads past the end in
`fromMatrix`; the public API documents name-or-Node). -/
inductive NodeRef where
  | byName (s : String)
  | byNode (id : Nat)
  | undefinedRef
deriving DecidableEq, Repr

/-- The `typeof(n) == 'string'` name-resolution prologue shared by
`addEdge`/`removeNode`/`breadthFirstTraverse`: strings go through
`_nodesMap`, everything else is used as a node; `undefined` is falsy and
rejected by the subsequent truthiness checks. -/
def resolveNode (g : GraphState) : NodeRef → Option Nat
  | .byName s => jsMapGet g.nodesMap s
  | .byNode nid => some nid
  | .undefinedRef => none

/-- `Graph.prototype.addNode(option)`.  Computes `name = option.name`
(throwing on `null`/`undefined` options), returns the existing node under
the coerced key when present, else allocates a Node per `Node.init`
(`name = option.name || ''`, `$option = option || null`), appends it to
`nodes` and registers it in `_nodesMap` under the key of the raw `name`. -/
def addNode (g : GraphState) (option : JSVal) :
    Except Unit (Nat × GraphState) :=
  match jsDotNameE option with
  | .error e => .error e
  | .ok name =>
    let key := jsKeyOfPrim name
    match jsMapGet g.nodesMap key with
    | some nid => .ok (nid, g)
    | none =>
      let nid := g.nodeArena.length
      let nd : NodeRec :=
        { name := jsOrEmptyStr name, opt := jsOrNull option, inEdges := [],
          outEdges := [], edges := [], visited := false }
      .ok (nid,
        { g with nodes := g.nodes ++ [nid],
                 nodesMap := jsMapSet g.nodesMap key nid,
                 nodeArena := g.nodeArena ++ [nd] })

/-- `Graph.prototype.getNodeByName(name)`. -/
def getNodeByName (g : GraphState) (name : String) : Option Nat :=
  jsMapGet g.nodesMap name

/-- `Graph.prototype.addEdge(n1, n2, option)`.  Resolves both endpoints
(returning `undefined` when either is absent), deduplicates on the exact
ordered key `n1.name + '-' + n2.name`, otherwise allocates an Edge
(`Edge.init` stores `$option = option`), pushes it on the endpoint
adjacency lists (`outEdges`/`inEdges` only when directed; `n2.edges`
skipped for self-loops), appends it to `edges` and registers the key.
`registerEdgeLists` is the adjacency-list block of `addEdge`: when directed
push on `n1.outEdges` and `n2.inEdges`; always push on `n1.edges`, and on
`n2.edges` unless `n1 === n2`. -/
def registerEdgeLists (g : GraphState) (n1 n2 eid : Nat) : GraphState :=
  let g2 :=
    if g.directed then
      modifyNode
        (modifyNode g n1 (fun nd => { nd with outEdges := nd.outEdges ++ [eid] }))
        n2 (fun nd => { nd with inEdges := nd.inEdges ++ [eid] })
    else g
  let g3 := modifyNode g2 n1 (fun nd => { nd with edges := nd.edges ++ [eid] })
  if n1 ≠ n2 then
    modifyNode g3 n2 (fun nd => { nd with edges := nd.edges ++ [eid] })
  else g3

/-- `Graph.prototype.addEdge(n1, n2, option)` proper; see
`registerEdgeLists` above for the adjacency-list block. -/
def addEdge (g : GraphState) (r1 r2 : NodeRef) (option : JSVal) :
    Option Nat × GraphState :=
  match resolveNode g r1, resolveNode g r2 with
  | some n1, some n2 =>
    let key := pairKey g n1 n2
    match jsMapGet g.edgesMap key with
    | some eid => (some eid, g)
    | none =>
      let eid := g.edgeArena.length
      let g1 := { g with
        edgeArena := g.edgeArena ++ [{ node1 := n1, node2 := n2, opt := option }] }
      let g4 := registerEdgeLists g1 n1 n2 eid
      (some eid,
        { g4 with edges := g4.edges ++ [eid],
                  edgesMap := jsMapSet g4.edgesMap key eid })
  | _, _ => (none, g)

/-- `Graph.prototype.removeEdge(edge)`.  Splices the edge out of the
endpoint adjacency lists (via `util.indexOf`), deletes the recomputed pair
key and splices the edge out of `edges`. -/
def removeEdgeG (g : GraphState) (eid : Nat) : GraphState :=
  let e := edgeOf g eid
  let key := pairKey g e.node1 e.node2
  let g1 :=
    if g.directed then
      modifyNode
        (modifyNode g e.node1
          (fun nd => { nd with outEdges := jsSplice1 nd.outEdges (jsIndexOf eid nd.outEdges) }))
        e.node2 (fun nd => { nd with inEdges := jsSplice1 nd.inEdges (jsIndexOf eid nd.inEdges) })
    else g
  let g2 := modifyNode g1 e.node1
    (fun nd => { nd with edges := jsSplice1 nd.edges (jsIndexOf eid nd.edges) })
  let g3 :=
    if e.node1 ≠ e.node2 then
      modifyNode g2 e.node2
        (fun nd => { nd with edges := jsSplice1 nd.edges (jsIndexOf eid nd.edges) })
    else g2
  { g3 with edgesMap := jsMapDel g3.edgesMap key,
            edges := jsSplice1 g3.edges (jsIndexOf eid g3.edges) }

/-- The name string an argument contributes to a `getEdge` key
(`n.name` for non-strings; the `undefined` case would throw in JS and is
never exercised here). -/
def refKeyName (g : GraphState) : NodeRef → String
  | .byName s => s
  | .byNode nid => nodeKeyName g nid
  | .undefinedRef => "undefined"

/-- `Graph.prototype.getEdge(n1, n2)`: directed graphs look up only the
exact key, undirected graphs fall back on the swapped key (`||`). -/
def getEdge (g : GraphState) (r1 r2 : NodeRef) : Option Nat :=
  let s1 := refKeyName g r1
  let s2 := refKeyName g r2
  if g.directed then jsMapGet g.edgesMap (s1 ++ "-" ++ s2)
  else
    match jsMapGet g.edgesMap (s1 ++ "-" ++ s2) with
    | some eid => some eid
    | none => jsMapGet g.edgesMap (s2 ++ "-" ++ s1)

theorem jsIndexOf_spec_of_mem {α : Type} [DecidableEq α] {a : α} :
    ∀ {l : List α}, a ∈ l →
      ∃ k : Nat, jsIndexOf a l = (k : Int) ∧ a ∉ l.take k ∧
        l.drop k = a :: l.drop (k + 1) := by
  intro l
  induction l with
  | nil => intro h; cases h
  | cons b t ih =>
    intro h
    by_cases hba : b = a
    · exact ⟨0, by simp [jsIndexOf, hba]⟩
    · have hat : a ∈ t := by
        cases h with
        | head => exact absurd rfl hba
        | tail _ h => exact h
      obtain ⟨k, hk, htk, hdk⟩ := ih hat
      refine ⟨k + 1, ?_, ?_, ?_⟩
      · have hnonneg : ¬ jsIndexOf a t < 0 := by omega
        have hk0 : ¬ ((k : Int) < 0) := by omega
        simp [jsIndexOf, hba, hk, hnonneg, hk0]
      · simp only [List.take_succ_cons, List.mem_cons, not_or]
        exact ⟨fun hh => hba hh.symm, htk⟩
      · simpa [List.drop_succ_cons] using hdk

theorem jsIndexOf_eq_of_first {α : Type} [DecidableEq α] {a : α} :
    ∀ {l : List α} {i : Nat}, a ∉ l.take i →
      l.drop i = a :: l.drop (i + 1) → jsIndexOf a l = (i : Int) := by
  intro l
  induction l with
  | nil => intro i _ hd; simp at hd
  | cons b t ih =>
    intro i hp hd
    cases i with
    | zero =>
      simp only [List.drop_zero] at hd
      have : b = a := by
        have := congrArg (fun l => l.headD a) hd
        simpa using this
      simp [jsIndexOf, this]
    | succ j =>
      simp only [List.take_succ_cons, List.mem_cons, not_or] at hp
      simp only [List.drop_succ_cons] at hd
      have hj : jsIndexOf a t = (j : Int) := ih hp.2 hd
      have hnonneg : ¬ jsIndexOf a t < 0 := by omega
      have hba : ¬ b = a := fun hh => hp.1 hh.symm
      have hj0 : ¬ ((j : Int) < 0) := by omega
      simp [jsIndexOf, hba, hj, hnonneg, hj0]

theorem jsSplice1_natCast {α : Type} (l : List α) (k : Nat) :
    jsSplice1 l (k : Int) = l.take k ++ l.drop (k + 1) := by
  unfold jsSplice1
  have h0 : ¬ ((k : Int) < 0) := by omega
  simp only [h0, if_false, Int.toNat_natCast]
  rcases le_or_lt k l.length with hle | hlt
  · rw [min_eq_left hle]
  · rw [min_eq_right (le_of_lt hlt)]
    rw [List.take_of_length_le (le_of_lt hlt), List.take_length,
        List.drop_eq_nil_of_le (by omega), List.drop_eq_nil_of_le (by omega)]

theorem jsSplice1_indexOf_length_lt {α : Type} [DecidableEq α] {a : α}
    {l : List α} (h : a ∈ l) :
    (jsSplice1 l (jsIndexOf a l)).length < l.length := by
  obtain ⟨k, hk, _, hdk⟩ := jsIndexOf_spec_of_mem h
  have hklen : k < l.length := by
    have := congrArg List.length hdk
    simp [List.length_drop] at this
    omega
  rw [hk, jsSplice1_natCast]
  simp [List.length_take, List.length_drop]
  omega

theorem not_mem_jsSplice1_indexOf {α : Type} [DecidableEq α] {a : α}
    {l : List α} (hd : l.Nodup) (h : a ∈ l) :
    a ∉ jsSplice1 l (jsIndexOf a l) := by
  obtain ⟨k, hk, htk, hdk⟩ := jsIndexOf_spec_of_mem h
  rw [hk, jsSplice1_natCast]
  intro hmem
  rcases List.mem_append.mp hmem with hmem | hmem
  · exact htk hmem
  · have hsub : (l.drop k).Nodup := (List.drop_sublist k l).nodup hd
    rw [hdk] at hsub
    exact (List.nodup_cons.mp hsub).1 hmem

theorem removeEdgeG_fields (g : GraphState) (eid : Nat) :
    (removeEdgeG g eid).nodes = g.nodes ∧
    (removeEdgeG g eid).nodesMap = g.nodesMap ∧
    (removeEdgeG g eid).edgeArena = g.edgeArena ∧
    (removeEdgeG g eid).directed = g.directed ∧
    (removeEdgeG g eid).edges = jsSplice1 g.edges (jsIndexOf eid g.edges) := by
  unfold removeEdgeG
  dsimp only
  split <;> split <;> simp [modifyNode]

theorem removeEdgeG_edges (g : GraphState) (eid : Nat) :
    (removeEdgeG g eid).edges = jsSplice1 g.edges (jsIndexOf eid g.edges) :=
  (removeEdgeG_fields g eid).2.2.2.2

/-- The incident-edge scan of `removeNode`: `for (i = 0; i < edges.length;)`
advance on non-incident edges, call `removeEdge` (holding `i`) on incident
ones.  Terminates because `removeEdge` always splices the (present) edge out
of `edges`. -/
def removeIncidentLoop (g : GraphState) (nid : Nat) (i : Nat) : GraphState :=
  if h : i < g.edges.length then
    let eid := g.edges.get ⟨i, h⟩
    if (edgeOf g eid).node1 = nid ∨ (edgeOf g eid).node2 = nid then
      removeIncidentLoop (removeEdgeG g eid) nid i
    else
      removeIncidentLoop g nid (i + 1)
  else g
termination_by g.edges.length - i
decreasing_by
  · have hmem : g.edges.get ⟨i, h⟩ ∈ g.edges := g.edges.get_mem i h
    have := jsSplice1_indexOf_length_lt hmem
    rw [← removeEdgeG_edges] at this
    omega
  · omega

/-- `Graph.prototype.removeNode(node)` after name resolution: deletes the
name-index entry, splices the node out of `nodes`, then scans the edge list
removing incident edges. -/
def removeNodeCore (g : GraphState) (nid : Nat) : GraphState :=
  let g1 := { g with
    nodesMap := jsMapDel g.nodesMap (nodeKeyName g nid),
    nodes := jsSplice1 g.nodes (jsIndexOf nid g.nodes) }
  removeIncidentLoop g1 nid 0

/-- `Graph.prototype.removeNode(node)`: a string resolves through
`_nodesMap` (absent name is a no-op); a Node reference is used directly.
(The `undefined` argument case would throw in JS and is never exercised.) -/
def removeNodeG (g : GraphState) : NodeRef → GraphState
  | .byName s =>
    match jsMapGet g.nodesMap s with
    | none => g
    | some nid => removeNodeCore g nid
  | .byNode nid => removeNodeCore g nid
  | .undefinedRef => g

/-- `Graph.prototype.filterNode(cb)` loop: left-to-right over the mutating
`nodes` sequence, advancing on a truthy callback, else removing the node and
shrinking the tracked length without advancing.  Additionally returns the
trace of nodes passed to the callback (the `none` branch models the
out-of-range read `this.nodes[i]`, unreachable because the tracked length
never exceeds the live length). -/
def filterNodeGo (cb : Nat → Nat → Bool) (g : GraphState) (i len : Nat)
    (tr : List Nat) : GraphState × List Nat :=
  if i < len then
    match g.nodes.get? i with
    | some nid =>
      if cb nid i then filterNodeGo cb g (i + 1) len (tr ++ [nid])
      else filterNodeGo cb (removeNodeG g (.byNode nid)) i (len - 1) (tr ++ [nid])
    | none => (g, tr)
  else (g, tr)
termination_by len - i
decreasing_by
  · omega
  · omega

/-- `Graph.prototype.filterNode(cb)`, also reporting the callback trace. -/
def filterNode (g : GraphState) (cb : Nat → Nat → Bool) :
    GraphState × List Nat :=
  filterNodeGo cb g 0 g.nodes.length []

/-- The `direction` argument selects which adjacency list BFS walks. -/
inductive EKind where
  | eAll
  | eOut
  | eIn
deriving DecidableEq, Repr

/-- `edgeType` selection: 'out' and 'in' pick `outEdges`/`inEdges`, anything
else picks `edges`. -/
def edgeKindOf (direction : String) : EKind :=
  if direction = "out" then .eOut
  else if direction = "in" then .eIn
  else .eAll

/-- Read the direction-selected adjacency list of a node. -/
def edgeListOf (k : EKind) (nd : NodeRec) : List Nat :=
  match k with
  | .eAll => nd.edges
  | .eOut => nd.outEdges
  | .eIn => nd.inEdges

/-- The reset pass of BFS: `__visited = false` on every live node. -/
def bfsReset (g : GraphState) : GraphState :=
  g.nodes.foldl
    (fun acc nid => modifyNode acc nid (fun nd => { nd with visited := false })) g

/-- The neighbor scan of one dequeued node: for each incident edge compute
the other endpoint; unvisited ones are reported to the callback (a truthy
result aborts the whole traversal), enqueued, and marked visited.  Returns
(stopped, state, queue, visit trace). -/
def bfsScan (cb : Nat → Option Nat → Bool) (current : Nat) :
    GraphState → List Nat → List Nat → List (Nat × Option Nat) →
      Bool × GraphState × List Nat × List (Nat × Option Nat)
  | g, [], q, tr => (false, g, q, tr)
  | g, eid :: rest, q, tr =>
    let e := edgeOf g eid
    let other := if e.node1 = current then e.node2 else e.node1
    if (nodeOf g other).visited then bfsScan cb current g rest q tr
    else if cb other (some current) then
      (true, g, q, tr ++ [(other, some current)])
    else
      bfsScan cb current
        (modifyNode g other (fun nd => { nd with visited := true }))
        rest (q ++ [other]) (tr ++ [(other, some current)])

/-- The FIFO loop of BFS, step-indexed by `fuel` (the JS `while` loop
terminates because only unvisited nodes are enqueued-and-marked; `none`
means the fuel ran out and never arises for adequate fuel). -/
def bfsLoop (cb : Nat → Option Nat → Bool) (ek : EKind) :
    Nat → GraphState → List Nat → List (Nat × Option Nat) →
      Option (GraphState × List (Nat × Option Nat))
  | 0, _, _, _ => none
  | _ + 1, g, [], tr => some (g, tr)
  | fuel + 1, g, current :: qrest, tr =>
    match bfsScan cb current g (edgeListOf ek (nodeOf g current)) qrest tr with
    | (true, g', _, tr') => some (g', tr')
    | (false, g', q', tr') => bfsLoop cb ek fuel g' q' tr'

/-- `Graph.prototype.breadthFirstTraverse(cb, startNode, direction)`:
resolves the start (no-op when absent), resets visited markers, calls
`cb(start, null)` (truthy stops immediately), then runs the FIFO loop.
Returns the final state and the trace of `cb` invocations. -/
def breadthFirstTraverse (g : GraphState) (cb : Nat → Option Nat → Bool)
    (start : NodeRef) (direction : String) (fuel : Nat) :
    Option (GraphState × List (Nat × Option Nat)) :=
  match resolveNode g start with
  | none => some (g, [])
  | some s =>
    let ek := edgeKindOf direction
    let g0 := bfsReset g
    if cb s none then some (g0, [(s, none)])
    else bfsLoop cb ek fuel g0 [s] [(s, none)]

/-- Passing a raw `name` value where `addEdge`/`getEdge` accept
name-or-Node: string names resolve by name; every node name constructed by
`Node.init` and occurring in this development is a string (non-strings are
coerced here, a corner no execution reaches). -/
def refOfName : JSPrim → NodeRef
  | .str s => .byName s
  | p => .byName (jsKeyOfPrim p)

/-- `Graph.prototype.clone()`.  The source calls
`graph.addNode(this.nodes[i].name, this.nodes[i].data)` and
`graph.addEdge(e.node1.name, e.node2.name, e.data)`: `addNode` takes a
single `option` parameter, so the extra argument is discarded by JS arity
and the `option` it receives is the raw name value; the `data` property
does not exist on Node/Edge (see the module docstring), so `e.data` reads
yield `undefined`. -/
def clone (g : GraphState) : Except Unit GraphState := do
  let g1 ← g.nodes.foldlM
    (fun (acc : GraphState) nid => do
      let r ← addNode acc (.prim (nodeOf g nid).name)
      pure r.2)
    (GraphNew g.directed)
  pure (g.edges.foldl
    (fun acc eid =>
      let e := edgeOf g eid
      (addEdge acc (refOfName (nodeOf g e.node1).name)
        (refOfName (nodeOf g e.node2).name) (.prim .undefined)).2)
    g1)

/-- `node.$option.k = v`: a field write on an object `$option`; on a
primitive `$option` (string, number, null, undefined) strict-mode JS throws
a `TypeError`. -/
def setNodeOptField (g : GraphState) (nid : Nat) (k : String) (v : JSPrim) :
    Except Unit GraphState :=
  match (nodeOf g nid).opt with
  | .obj fields =>
    .ok (modifyNode g nid (fun nd => { nd with opt := .obj (jsFieldSet fields k v) }))
  | .prim _ => .error ()

/-- `node.$option.k += item`: read-modify-write; throws on a primitive
`$option` (the write does).  A missing or non-numeric field would produce
`NaN` in JS; that case is unreachable here because the first `fromMatrix`
loop initializes every accumulator field it later adds to. -/
def addNodeOptNum (g : GraphState) (nid : Nat) (k : String) (item : Int) :
    Except Unit GraphState :=
  match (nodeOf g nid).opt with
  | .obj fields =>
    match jsFieldGet fields k with
    | .num n =>
      .ok (modifyNode g nid
        (fun nd => { nd with opt := .obj (jsFieldSet fields k (.num (n + item))) }))
    | _ => .error ()
  | .prim _ => .error ()

/-- `edge.$option.k = v`, analogous to `setNodeOptField`. -/
def setEdgeOptField (g : GraphState) (eid : Nat) (k : String) (v : JSPrim) :
    Except Unit GraphState :=
  match (edgeOf g eid).opt with
  | .obj fields =>
    .ok (modifyEdge g eid (fun e => { e with opt := .obj (jsFieldSet fields k v) }))
  | .prim _ => .error ()

/-- `graph.nodes[i]` followed immediately by a property access: an
out-of-range read yields `undefined` and the access throws. -/
def graphNodeAt (g : GraphState) (i : Nat) : Except Unit Nat :=
  match g.nodes.get? i with
  | some nid => .ok nid
  | none => .error ()

/-- `graph.nodes[i]` used as an argument value: out of range it is the
`undefined` reference. -/
def nodeRefAt (g : GraphState) (i : Nat) : NodeRef :=
  match g.nodes.get? i with
  | some nid => .byNode nid
  | none => .undefinedRef

/-- `matrix[i][j]`.  Out-of-range reads would be `undefined` in JS and taint
the arithmetic with `NaN`; no theorem below exercises that corner (0 is a
placeholder). -/
def matrixAt (matrix : List (List Int)) (i j : Nat) : Int :=
  (matrix.getD i []).getD j 0

/-- `Graph.fromMatrix(nodesData, matrix, directed)`.  Validation demands a
non-empty matrix whose FIRST row has as many entries as there are rows and
whose row count equals `nodesData.length`, returning `undefined` (`none`)
otherwise.  Then: one node per entry via
`graph.addNode(nodesData[i].name, nodesData[i])` (a two-argument call of
the unary `addNode`, so the option is the raw name value) with accumulator
fields zeroed on `$option`; a full double loop accumulating `value` (and
`outValue`/`inValue` when directed); and an upper-triangle pass creating
edges with `weight` on their `$option` plus mirrored directed edges. -/
def fromMatrix (nodesData : List JSVal) (matrix : List (List Int))
    (directed : Bool) : Except Unit (Option GraphState) :=
  if matrix.length = 0 ∨ (matrix.headD []).length ≠ matrix.length
      ∨ nodesData.length ≠ matrix.length then
    .ok none
  else do
    let size := matrix.length
    let g1 ← (List.range size).foldlM
      (fun (g : GraphState) i => do
        let nameVal ← jsDotNameE (nodesData.getD i (.prim .undefined))
        let r ← addNode g (.prim nameVal)
        let nid := r.1
        let g := r.2
        let g ← setNodeOptField g nid "value" (.num 0)
        if directed then do
          let g ← setNodeOptField g nid "inValue" (.num 0)
          setNodeOptField g nid "outValue" (.num 0)
        else pure g)
      (GraphNew directed)
    let g2 ← (List.range size).foldlM
      (fun g i =>
        (List.range size).foldlM
          (fun g j => do
            let item := matrixAt matrix i j
            let g ←
              if directed then do
                let ni ← graphNodeAt g i
                let g ← addNodeOptNum g ni "outValue" item
                let nj ← graphNodeAt g j
                addNodeOptNum g nj "inValue" item
              else pure g
            let ni ← graphNodeAt g i
            let g ← addNodeOptNum g ni "value" item
            let nj ← graphNodeAt g j
            addNodeOptNum g nj "value" item)
          g)
      g1
    let g3 ← (List.range size).foldlM
      (fun g i =>
        ((List.range size).drop i).foldlM
          (fun g j => do
            let item := matrixAt matrix i j
            if item = 0 then pure g
            else do
              let n1 := nodeRefAt g i
              let n2 := nodeRefAt g j
              let p := addEdge g n1 n2 (.obj [])
              let g := p.2
              match p.1 with
              | none => Except.error ()
              | some eid => do
                let g ← setEdgeOptField g eid "weight" (.num item)
                if i ≠ j then
                  if directed && (matrixAt matrix j i != 0) then do
                    let p2 := addEdge g n2 n1 (.obj [])
                    let g := p2.2
                    match p2.1 with
                    | none => Except.error ()
                    | some eid2 =>
                      setEdgeOptField g eid2 "weight" (.num (matrixAt matrix j i))
                  else pure g
                else pure g)
          g)
      g2
    pure (some g3)

/-- Build step for concrete example graphs: run `addNode`, defaulting on a
throw (never hit: all options below are objects with string names). -/
def addNodeD (g : GraphState) (o : JSVal) : Nat × GraphState :=
  ((addNode g o).toOption).getD (0, g)

/-- A node-creation option `\x7b name: s \x7d`. -/
def nodeObj (s : String) : JSVal := .obj [("name", .str s)]

/-- Undirected triangle: nodes A(0), B(1), C(2), edges A-B(0), B-C(1),
A-C(2). -/
def gTri : GraphState :=
  let g := (addNodeD (GraphNew false) (nodeObj "A")).2
  let g := (addNodeD g (nodeObj "B")).2
  let g := (addNodeD g (nodeObj "C")).2
  let g := (addEdge g (.byName "A") (.byName "B") (.obj [])).2
  let g := (addEdge g (.byName "B") (.byName "C") (.obj [])).2
  (addEdge g (.byName "A") (.byName "C") (.obj [])).2

/-- Undirected graph with nodes A(0), B(1) and the single edge A-B(0). -/
def gAB : GraphState :=
  let g := (addNodeD (GraphNew false) (nodeObj "A")).2
  let g := (addNodeD g (nodeObj "B")).2
  (addEdge g (.byName "A") (.byName "B") (.obj [])).2

/-- Undirected graph with nodes named "a-a"(0) and "a"(1): both ordered
pair keys collapse to "a-a-a". -/
def gColl : GraphState :=
  let g := (addNodeD (GraphNew false) (nodeObj "a-a")).2
  (addNodeD g (nodeObj "a")).2

/-- Undirected graph with nodes "a-b"(0), "c"(1), "a"(2), "b-c"(3) and the
edge (0,1) stored under the key "a-b-c", which is also the key of the
distinct pair (2,3). -/
def gDash : GraphState :=
  let g := (addNodeD (GraphNew false) (nodeObj "a-b")).2
  let g := (addNodeD g (nodeObj "c")).2
  let g := (addNodeD g (nodeObj "a")).2
  let g := (addNodeD g (nodeObj "b-c")).2
  (addEdge g (.byNode 0) (.byNode 1) (.obj [])).2

/-- Undirected graph with nodes "a"(0), "b"(1) and an edge added as
`addEdge(b, a)` (edge 0, key "b-a"). -/
def gBA : GraphState :=
  let g := (addNodeD (GraphNew false) (nodeObj "a")).2
  let g := (addNodeD g (nodeObj "b")).2
  (addEdge g (.byName "b") (.byName "a") (.obj [])).2

/-- Undirected graph with the dash-free nodes "a"(0) and "b"(1) and no
edges. -/
def gNoEdges : GraphState :=
  let g := (addNodeD (GraphNew false) (nodeObj "a")).2
  (addNodeD g (nodeObj "b")).2

/-- Directed graph with nodes "a"(0), "b"(1) and the edge 0 -> 1. -/
def gDirAB : GraphState :=
  let g := (addNodeD (GraphNew true) (nodeObj "a")).2
  let g := (addNodeD g (nodeObj "b")).2
  (addEdge g (.byNode 0) (.byNode 1) (.obj [])).2

theorem jsMapGet_set_self (m : List (String × Nat)) (k : String) (v : Nat) :
    jsMapGet (jsMapSet m k v) k = some v := by
  simp [jsMapSet, jsMapGet]

theorem jsMapGet_filter_ne (m : List (String × Nat)) (k k' : String)
    (h : k' ≠ k) :
    jsMapGet (m.filter (fun p => p.1 != k)) k' = jsMapGet m k' := by
  induction m with
  | nil => rfl
  | cons p t ih =>
    obtain ⟨pk, pv⟩ := p
    by_cases hpk : pk = k
    · have hb : (pk != k) = false := by simp [hpk]
      have hp' : pk ≠ k' := fun hh => h (hh.symm.trans hpk)
      simp [List.filter_cons, hb, jsMapGet, hp', ih]
    · have hb : (pk != k) = true := by simp [hpk]
      by_cases hpk' : pk = k'
      · simp [List.filter_cons, hb, jsMapGet, hpk', h]
      · simp [List.filter_cons, hb, jsMapGet, hpk', ih]

theorem jsMapGet_set_ne (m : List (String × Nat)) (k k' : String) (v : Nat)
    (h : k' ≠ k) :
    jsMapGet (jsMapSet m k v) k' = jsMapGet m k' := by
  simp [jsMapSet, jsMapGet, Ne.symm h, jsMapGet_filter_ne m k k' h]

theorem jsMapGet_del_self (m : List (String × Nat)) (k : String) :
    jsMapGet (jsMapDel m k) k = none := by
  induction m with
  | nil => rfl
  | cons p t ih =>
    obtain ⟨pk, pv⟩ := p
    by_cases hpk : pk = k
    · have hb : (pk != k) = false := by simp [hpk]
      simpa [jsMapDel, List.filter_cons, hb] using ih
    · have hb : (pk != k) = true := by simp [hpk]
      simpa [jsMapDel, List.filter_cons, hb, jsMapGet, hpk] using ih

theorem removeIncidentLoop_pres : ∀ (g : GraphState) (nid i : Nat),
    (removeIncidentLoop g nid i).nodes = g.nodes ∧
    (removeIncidentLoop g nid i).nodesMap = g.nodesMap ∧
    (removeIncidentLoop g nid i).edgeArena = g.edgeArena ∧
    (removeIncidentLoop g nid i).directed = g.directed := by
  intro g nid i
  induction g, nid, i using removeIncidentLoop.induct with
  | case1 g nid i h eid hinc ih =>
    rw [removeIncidentLoop]
    simp only [dif_pos h]
    rw [if_pos hinc]
    obtain ⟨f1, f2, f3, f4, _⟩ := removeEdgeG_fields g eid
    exact ⟨ih.1.trans f1, ih.2.1.trans f2, ih.2.2.1.trans f3, ih.2.2.2.trans f4⟩
  | case2 g nid i h eid hninc ih =>
    rw [removeIncidentLoop]
    simp only [dif_pos h]
    rw [if_neg hninc]
    exact ih
  | case3 g nid i h =>
    rw [removeIncidentLoop, dif_neg h]
    exact ⟨rfl, rfl, rfl, rfl⟩

theorem removeIncidentLoop_clean : ∀ (g : GraphState) (nid i : Nat),
    (∀ e ∈ g.edges.take i,
      ¬((edgeOf g e).node1 = nid ∨ (edgeOf g e).node2 = nid)) →
    ∀ e ∈ (removeIncidentLoop g nid i).edges,
      ¬((edgeOf g e).node1 = nid ∨ (edgeOf g e).node2 = nid) := by
  intro g nid i
  induction g, nid, i using removeIncidentLoop.induct with
  | case1 g nid i h eid hinc ih =>
    intro hclean
    rw [removeIncidentLoop]
    simp only [dif_pos h]
    rw [if_pos hinc]
    have harena : (removeEdgeG g eid).edgeArena = g.edgeArena :=
      (removeEdgeG_fields g eid).2.2.1
    have hedgeOf : ∀ e, edgeOf (removeEdgeG g eid) e = edgeOf g e := by
      intro e; unfold edgeOf; rw [harena]
    have hidx : jsIndexOf eid g.edges = (i : Int) := by
      apply jsIndexOf_eq_of_first
      · intro hmem
        exact hclean eid hmem hinc
      · exact List.drop_eq_getElem_cons h
    have hedges : (removeEdgeG g eid).edges =
        g.edges.take i ++ g.edges.drop (i + 1) := by
      rw [removeEdgeG_edges, hidx, jsSplice1_natCast]
    have htake : (removeEdgeG g eid).edges.take i = g.edges.take i := by
      rw [hedges]
      exact List.take_left' (by simp [List.length_take]; omega)
    have hclean' : ∀ e ∈ (removeEdgeG g eid).edges.take i,
        ¬((edgeOf (removeEdgeG g eid) e).node1 = nid ∨
          (edgeOf (removeEdgeG g eid) e).node2 = nid) := by
      intro e hmem
      rw [hedgeOf]
      exact hclean e (htake ▸ hmem)
    intro e hmem
    have := ih hclean' e hmem
    rwa [hedgeOf] at this
  | case2 g nid i h eid hninc ih =>
    intro hclean
    rw [removeIncidentLoop]
    simp only [dif_pos h]
    rw [if_neg hninc]
    apply ih
    intro e hmem
    rw [List.take_succ] at hmem
    rcases List.mem_append.mp hmem with hmem | hmem
    · exact hclean e hmem
    · have : e = g.edges.get ⟨i, h⟩ := by
        have hg : g.edges[i]? = some (g.edges.get ⟨i, h⟩) := by
          rw [List.getElem?_eq_getElem h]
          rfl
        rw [hg] at hmem
        simpa using hmem
      rw [this]
      exact hninc
  | case3 g nid i h =>
    intro hclean e hmem
    rw [removeIncidentLoop, dif_neg h] at hmem
    have hall : g.edges.take i = g.edges := List.take_of_length_le (by omega)
    exact hclean e (by rw [hall]; exact hmem)

theorem removeNodeCore_spec (g : GraphState) (nid : Nat) :
    (removeNodeCore g nid).nodes = jsSplice1 g.nodes (jsIndexOf nid g.nodes) ∧
    jsMapGet (removeNodeCore g nid).nodesMap (nodeKeyName g nid) = none ∧
    (removeNodeCore g nid).edgeArena = g.edgeArena ∧
    ∀ e ∈ (removeNodeCore g nid).edges,
      ¬((edgeOf (removeNodeCore g nid) e).node1 = nid ∨
        (edgeOf (removeNodeCore g nid) e).node2 = nid) := by
  unfold removeNodeCore
  set g1 : GraphState := { g with
    nodesMap := jsMapDel g.nodesMap (nodeKeyName g nid),
    nodes := jsSplice1 g.nodes (jsIndexOf nid g.nodes) } with hg1
  obtain ⟨p1, p2, p3, _⟩ := removeIncidentLoop_pres g1 nid 0
  have hEdgeOf : ∀ e, edgeOf (removeIncidentLoop g1 nid 0) e = edgeOf g1 e := by
    intro e; unfold edgeOf; rw [p3]
  refine ⟨?_, ?_, ?_, ?_⟩
  · rw [p1]
  · rw [p2]
    exact jsMapGet_del_self g.nodesMap (nodeKeyName g nid)
  · rw [p3]
  · intro e hmem
    have hclean := removeIncidentLoop_clean g1 nid 0 (by simp) e hmem
    rw [hEdgeOf]
    exact hclean

theorem getD_set_name : ∀ (l : List NodeRec) (i j : Nat) (v : NodeRec),
    v.name = (l.getD i dfltNode).name →
    ((l.set i v).getD j dfltNode).name = (l.getD j dfltNode).name := by
  intro l
  induction l with
  | nil => intro i j v _; rfl
  | cons a t ih =>
    intro i j v hv
    cases i with
    | zero =>
      cases j with
      | zero => simpa using hv
      | succ k => rfl
    | succ m =>
      cases j with
      | zero => rfl
      | succ k => exact ih m k v hv

theorem nodeKeyName_modifyNode (g : GraphState) (nid j : Nat)
    (f : NodeRec → NodeRec) (hf : ∀ nd, (f nd).name = nd.name) :
    nodeKeyName (modifyNode g nid f) j = nodeKeyName g j := by
  unfold nodeKeyName nodeOf modifyNode
  exact congrArg jsKeyOfPrim (getD_set_name g.nodeArena nid j _ (hf _))

theorem modifyNode_directed (g : GraphState) (nid : Nat) (f : NodeRec → NodeRec) :
    (modifyNode g nid f).directed = g.directed := rfl

theorem modifyNode_nodes (g : GraphState) (nid : Nat) (f : NodeRec → NodeRec) :
    (modifyNode g nid f).nodes = g.nodes := rfl

theorem modifyNode_edges (g : GraphState) (nid : Nat) (f : NodeRec → NodeRec) :
    (modifyNode g nid f).edges = g.edges := rfl

theorem modifyNode_edgeArena (g : GraphState) (nid : Nat) (f : NodeRec → NodeRec) :
    (modifyNode g nid f).edgeArena = g.edgeArena := rfl

theorem nodeKeyName_push_edges (g : GraphState) (nid j e : Nat) :
    nodeKeyName
      (modifyNode g nid (fun nd => { nd with edges := nd.edges ++ [e] })) j =
    nodeKeyName g j :=
  nodeKeyName_modifyNode _ _ _ _ (fun _ => rfl)

theorem nodeKeyName_push_out (g : GraphState) (nid j e : Nat) :
    nodeKeyName
      (modifyNode g nid (fun nd => { nd with outEdges := nd.outEdges ++ [e] })) j =
    nodeKeyName g j :=
  nodeKeyName_modifyNode _ _ _ _ (fun _ => rfl)

theorem nodeKeyName_push_in (g : GraphState) (nid j e : Nat) :
    nodeKeyName
      (modifyNode g nid (fun nd => { nd with inEdges := nd.inEdges ++ [e] })) j =
    nodeKeyName g j :=
  nodeKeyName_modifyNode _ _ _ _ (fun _ => rfl)

theorem registerEdgeLists_spec (g : GraphState) (n1 n2 eid : Nat) :
    (registerEdgeLists g n1 n2 eid).directed = g.directed ∧
    (registerEdgeLists g n1 n2 eid).nodes = g.nodes ∧
    (registerEdgeLists g n1 n2 eid).edges = g.edges ∧
    (registerEdgeLists g n1 n2 eid).nodesMap = g.nodesMap ∧
    (registerEdgeLists g n1 n2 eid).edgesMap = g.edgesMap ∧
    (registerEdgeLists g n1 n2 eid).edgeArena = g.edgeArena ∧
    ∀ j, nodeKeyName (registerEdgeLists g n1 n2 eid) j = nodeKeyName g j := by
  unfold registerEdgeLists
  dsimp only
  split <;> split <;>
    exact ⟨rfl, rfl, rfl, rfl, rfl, rfl, fun j => by
      simp only [nodeKeyName_push_edges, nodeKeyName_push_out, nodeKeyName_push_in]⟩

theorem addEdge_byNode_hit (g : GraphState) (a b : Nat) (o : JSVal) (e : Nat)
    (hhit : jsMapGet g.edgesMap (pairKey g a b) = some e) :
    addEdge g (.byNode a) (.byNode b) o = (some e, g) := by
  unfold addEdge resolveNode
  dsimp only
  rw [hhit]

theorem addEdge_byNode_new (g : GraphState) (a b : Nat) (o : JSVal)
    (hmiss : jsMapGet g.edgesMap (pairKey g a b) = none) :
    (addEdge g (.byNode a) (.byNode b) o).1 = some g.edgeArena.length ∧
    (addEdge g (.byNode a) (.byNode b) o).2.edges =
      g.edges ++ [g.edgeArena.length] ∧
    (addEdge g (.byNode a) (.byNode b) o).2.edgesMap =
      jsMapSet g.edgesMap (pairKey g a b) g.edgeArena.length ∧
    (addEdge g (.byNode a) (.byNode b) o).2.edgeArena.length =
      g.edgeArena.length + 1 ∧
    (addEdge g (.byNode a) (.byNode b) o).2.directed = g.directed ∧
    ∀ j, nodeKeyName (addEdge g (.byNode a) (.byNode b) o).2 j =
      nodeKeyName g j := by
  unfold addEdge resolveNode
  dsimp only
  rw [hmiss]
  dsimp only
  obtain ⟨rd, rn, re, rm, rem, ra, rk⟩ := registerEdgeLists_spec
    { g with edgeArena := g.edgeArena ++ [{ node1 := a, node2 := b, opt := o }] }
    a b g.edgeArena.length
  refine ⟨rfl, ?_, ?_, ?_, ?_, fun j => ?_⟩
  · rw [re]
  · rw [rem]
  · rw [ra]
    simp
  · rw [rd]
  · exact rk j

theorem removeNodeG_byNode (g : GraphState) (nid : Nat) :
    removeNodeG g (.byNode nid) = removeNodeCore g nid := rfl

theorem filterNodeGo_spec (p : Nat → Bool) :
    ∀ (n : Nat) (g : GraphState) (i len : Nat) (tr : List Nat),
      len - i ≤ n → len = g.nodes.length →
      (∀ e ∈ g.nodes.take i, p e = true) →
      (filterNodeGo (fun nid _ => p nid) g i len tr).1.nodes =
        g.nodes.take i ++ (g.nodes.drop i).filter p ∧
      (filterNodeGo (fun nid _ => p nid) g i len tr).2 =
        tr ++ g.nodes.drop i := by
  intro n
  induction n with
  | zero =>
    intro g i len tr hn hlen hclean
    have hni : ¬ i < len := by omega
    rw [filterNodeGo, if_neg hni]
    rw [List.take_of_length_le (by omega), List.drop_eq_nil_of_le (by omega)]
    simp
  | succ n ih =>
    intro g i len tr hn hlen hclean
    by_cases hi : i < len
    · have hilen : i < g.nodes.length := by omega
      have hget : g.nodes.get? i = some (g.nodes.get ⟨i, hilen⟩) :=
        List.get?_eq_get hilen
      have hdrop : g.nodes.drop i =
          g.nodes.get ⟨i, hilen⟩ :: g.nodes.drop (i + 1) := by
        exact List.drop_eq_getElem_cons hilen
      rw [filterNodeGo, if_pos hi, hget]
      dsimp only
      by_cases hp : p (g.nodes.get ⟨i, hilen⟩) = true
      · rw [if_pos hp]
        have hclean' : ∀ e ∈ g.nodes.take (i + 1), p e = true := by
          intro e hmem
          rw [List.take_succ] at hmem
          rcases List.mem_append.mp hmem with hmem | hmem
          · exact hclean e hmem
          · have hg : g.nodes[i]? = some (g.nodes.get ⟨i, hilen⟩) := by
              rw [List.getElem?_eq_getElem hilen]
              rfl
            rw [hg] at hmem
            simp at hmem
            rw [hmem]
            exact hp
        obtain ⟨c1, c2⟩ := ih g (i + 1) len (tr ++ [g.nodes.get ⟨i, hilen⟩])
          (by omega) hlen hclean'
        have htak : g.nodes.take (i + 1) =
            g.nodes.take i ++ [g.nodes.get ⟨i, hilen⟩] := by
          rw [List.take_succ]
          rw [show g.nodes[i]? = some (g.nodes.get ⟨i, hilen⟩) by
            rw [List.getElem?_eq_getElem hilen]; rfl]
          rfl
        refine ⟨?_, ?_⟩
        · rw [c1, htak, hdrop, List.filter_cons]
          have hpg : p g.nodes[i] = true := hp
          simp [hpg]
          rw [htak, List.append_assoc]
          rfl
        · rw [c2, hdrop]
          simp
      · rw [if_neg hp]
        have hp' : p (g.nodes.get ⟨i, hilen⟩) = false := by
          revert hp; cases p (g.nodes.get ⟨i, hilen⟩) <;> simp
        have hfirst : jsIndexOf (g.nodes.get ⟨i, hilen⟩) g.nodes = (i : Int) := by
          apply jsIndexOf_eq_of_first
          · intro hmem
            have := hclean _ hmem
            rw [this] at hp'
            cases hp'
          · exact List.drop_eq_getElem_cons hilen
        have hg'nodes : (removeNodeG g (.byNode (g.nodes.get ⟨i, hilen⟩))).nodes =
            g.nodes.take i ++ g.nodes.drop (i + 1) := by
          rw [removeNodeG_byNode, (removeNodeCore_spec g _).1, hfirst,
            jsSplice1_natCast]
        have hlen' : len - 1 =
            (removeNodeG g (.byNode (g.nodes.get ⟨i, hilen⟩))).nodes.length := by
          rw [hg'nodes]
          simp [List.length_take, List.length_drop]
          omega
        have htake' : (removeNodeG g (.byNode (g.nodes.get ⟨i, hilen⟩))).nodes.take i =
            g.nodes.take i := by
          rw [hg'nodes]
          exact List.take_left' (by simp [List.length_take]; omega)
        have hdrop' : (removeNodeG g (.byNode (g.nodes.get ⟨i, hilen⟩))).nodes.drop i =
            g.nodes.drop (i + 1) := by
          rw [hg'nodes]
          exact List.drop_left' (by simp [List.length_take]; omega)
        have hclean'' : ∀ e ∈ (removeNodeG g (.byNode (g.nodes.get ⟨i, hilen⟩))).nodes.take i,
            p e = true := by
          rw [htake']
          exact hclean
        obtain ⟨c1, c2⟩ := ih (removeNodeG g (.byNode (g.nodes.get ⟨i, hilen⟩))) i
          (len - 1) (tr ++ [g.nodes.get ⟨i, hilen⟩]) (by omega) hlen' hclean''
        refine ⟨?_, ?_⟩
        · rw [c1, htake', hdrop', hdrop, List.filter_cons]
          have hpg : p g.nodes[i] = false := hp'
          simp [hpg]
        · rw [c2, hdrop', hdrop]
          simp
    · rw [filterNodeGo, if_neg hi]
      rw [List.take_of_length_le (by omega), List.drop_eq_nil_of_le (by omega)]
      simp

/-- C1: evaluation of `clone` at the failing input `gAB` (undirected, nodes
A and B, one edge A-B).  The claim says the clone has the same node names in
the same order and the same edge triples; instead the clone has exactly one
node, named the empty string and indexed under the key "undefined", and no
edges, because `clone` passes `this.nodes[i].name` (a string) as `addNode`'s
`option` parameter, so `option.name` is `undefined`, every node collapses
into the first, and the `addEdge` calls cannot resolve the original names in
the clone's name index. -/
theorem c1_clone_collapses :
    gAB.nodes.length = 2 ∧
    gAB.nodeArena.map NodeRec.name = [JSPrim.str "A", JSPrim.str "B"] ∧
    gAB.edges.length = 1 ∧
    (clone gAB).toOption.map
      (fun h => (h.directed, h.nodes.length, h.edges,
        h.nodeArena.map NodeRec.name, h.nodesMap)) =
      some (false, 1, [], [JSPrim.str ""], [("undefined", 0)]) :=
  ⟨rfl, rfl, rfl, rfl⟩

/-- C2: evaluation of `breadthFirstTraverse` at the failing input (the
undirected triangle `gTri` with edges A-B, B-C, A-C, start A, direction
"none", an always-false callback).  The claim says `visit` is invoked
exactly three times with no node repeated; instead the source never marks
the start node's `__visited` flag, so the trace has a fourth call, visiting
A again with predecessor B: (A, null), (B, A), (C, A), (A, B). -/
theorem c2_bfs_visits_start_again :
    (breadthFirstTraverse gTri (fun _ _ => false) (.byNode 0) "none" 10).map
        Prod.snd =
      some [(0, none), (1, some 0), (2, some 0), (0, some 1)] := rfl

/-- C3: evaluation of `Graph.fromMatrix` at the claim's own input
`([ (name A), (name B) ], [[0,2],[2,0]], false)`.  The claim says it returns
an undirected graph with nodes A, B, one weight-2 edge and `value = 4` on
both payloads; instead the call throws a `TypeError`: `fromMatrix` passes
`nodesData[i].name` (a string) as `addNode`'s `option`, so the created
node's `$option` is the string "A" and the strict-mode assignment
`node.$option.value = 0` throws (all rows also collapse into a single node
keyed "undefined"). -/
theorem c3_fromMatrix_throws :
    fromMatrix [nodeObj "A", nodeObj "B"] [[0, 2], [2, 0]] false =
      .error () := rfl

/-- C4 counterexample: the ragged matrix `[[1,2],[3]]` (second row's length
1 differs from the row count 2) with two node records passes the source's
validation, which checks only the FIRST row's length, so `fromMatrix` does
not return `absent` as the claim demands — it proceeds and throws. -/
theorem c4_counterexample :
    ([[1, 2], [3]] : List (List Int)).length = 2 ∧
    ([3] : List Int).length ≠ 2 ∧
    fromMatrix [nodeObj "A", nodeObj "B"] [[1, 2], [3]] false =
      Except.error () ∧
    (Except.error () : Except Unit (Option GraphState)) ≠ Except.ok none :=
  ⟨rfl, by decide, rfl, fun h => Except.noConfusion h⟩

/-- C4 (amended): if the matrix is empty, or its FIRST row's length differs
from the row count, or `nodesData.length` differs from the row count, then
`Graph.fromMatrix` returns absent and builds no partial graph.  (The
original claim's "some row's length differs" fails on `c4_counterexample`:
validation inspects only `matrix[0].length`.) -/
theorem c4_amended (nodesData : List JSVal) (matrix : List (List Int))
    (directed : Bool)
    (h : matrix = [] ∨ (matrix.headD []).length ≠ matrix.length ∨
      nodesData.length ≠ matrix.length) :
    fromMatrix nodesData matrix directed = .ok none := by
  have hc : matrix.length = 0 ∨ (matrix.headD []).length ≠ matrix.length ∨
      nodesData.length ≠ matrix.length := by
    rcases h with h | h | h
    · left; rw [h]; rfl
    · right; left; exact h
    · right; right; exact h
  unfold fromMatrix
  rw [if_pos hc]

/-- C4 witness: the amended theorem applied at the empty matrix. -/
theorem c4_amended_witness : fromMatrix [] [] false = .ok none :=
  c4_amended [] [] false (Or.inl rfl)

/-- C5 counterexample: in the undirected graph `gColl` with the distinct
nodes "a-a" (id 0) and "a" (id 1) and no edges at all, both ordered keys
coincide ("a-a" + "-" + "a" = "a" + "-" + "a-a" = "a-a-a"), so
`addEdge(a,b)` followed by `addEdge(b,a)` returns the SAME edge instance
and the edge sequence has a single element — not the two distinct edges the
claim asserts for every undirected graph. -/
theorem c5_counterexample :
    gColl.directed = false ∧
    gColl.nodes = [0, 1] ∧
    nodeKeyName gColl 0 ≠ nodeKeyName gColl 1 ∧
    gColl.edges = [] ∧
    (addEdge gColl (.byNode 0) (.byNode 1) (.obj [])).1 = some 0 ∧
    (addEdge (addEdge gColl (.byNode 0) (.byNode 1) (.obj [])).2
      (.byNode 1) (.byNode 0) (.obj [])).1 = some 0 ∧
    (addEdge (addEdge gColl (.byNode 0) (.byNode 1) (.obj [])).2
      (.byNode 1) (.byNode 0) (.obj [])).2.edges = [0] :=
  ⟨rfl, rfl, by decide, rfl, rfl, rfl, rfl⟩

/-- C5 (amended): for every undirected graph containing the distinct live
nodes `a` and `b`, if no edge is registered in the pair index under either
ordered key and the two ordered keys differ (as is the case whenever node
names contain no '-'), then `addEdge(a,b)` followed by `addEdge(b,a)`
creates two distinct Edge instances, both present in the graph's edge
sequence.  (The original claim, quantified over all undirected graphs with
"no prior edge between them", fails on `c5_counterexample`, where the two
ordered keys collide.) -/
theorem c5_amended (g : GraphState) (a b : Nat) (o1 o2 : JSVal)
    (_hmemA : a ∈ g.nodes) (_hmemB : b ∈ g.nodes) (_hab : a ≠ b)
    (_hdir : g.directed = false)
    (h1 : jsMapGet g.edgesMap (pairKey g a b) = none)
    (h2 : jsMapGet g.edgesMap (pairKey g b a) = none)
    (hk : pairKey g a b ≠ pairKey g b a) :
    ∃ e1 e2 : Nat,
      (addEdge g (.byNode a) (.byNode b) o1).1 = some e1 ∧
      (addEdge (addEdge g (.byNode a) (.byNode b) o1).2
        (.byNode b) (.byNode a) o2).1 = some e2 ∧
      e1 ≠ e2 ∧
      e1 ∈ (addEdge (addEdge g (.byNode a) (.byNode b) o1).2
        (.byNode b) (.byNode a) o2).2.edges ∧
      e2 ∈ (addEdge (addEdge g (.byNode a) (.byNode b) o1).2
        (.byNode b) (.byNode a) o2).2.edges := by
  obtain ⟨r1, re, rm, ra, rd, rk⟩ := addEdge_byNode_new g a b o1 h1
  have hpk : pairKey (addEdge g (.byNode a) (.byNode b) o1).2 b a =
      pairKey g b a := by
    unfold pairKey
    rw [rk a, rk b]
  have h2' : jsMapGet (addEdge g (.byNode a) (.byNode b) o1).2.edgesMap
      (pairKey (addEdge g (.byNode a) (.byNode b) o1).2 b a) = none := by
    rw [hpk, rm, jsMapGet_set_ne _ _ _ _ (Ne.symm hk)]
    exact h2
  obtain ⟨r1', re', rm', ra', rd', rk'⟩ :=
    addEdge_byNode_new (addEdge g (.byNode a) (.byNode b) o1).2 b a o2 h2'
  refine ⟨g.edgeArena.length,
    (addEdge g (.byNode a) (.byNode b) o1).2.edgeArena.length,
    r1, ?_, ?_, ?_, ?_⟩
  · exact r1'
  · rw [ra]
    omega
  · rw [re', re]
    simp
  · rw [re']
    simp

/-- C5 witness: the amended theorem applied to `gNoEdges`, the undirected
graph with the dash-free nodes "a" (0) and "b" (1) and no edges. -/
theorem c5_amended_witness :
    ((0 : Nat) ∈ gNoEdges.nodes ∧ (1 : Nat) ∈ gNoEdges.nodes ∧
      gNoEdges.directed = false ∧
      jsMapGet gNoEdges.edgesMap (pairKey gNoEdges 0 1) = none ∧
      jsMapGet gNoEdges.edgesMap (pairKey gNoEdges 1 0) = none ∧
      pairKey gNoEdges 0 1 ≠ pairKey gNoEdges 1 0) ∧
    ∃ e1 e2 : Nat,
      (addEdge gNoEdges (.byNode 0) (.byNode 1) (.obj [])).1 = some e1 ∧
      (addEdge (addEdge gNoEdges (.byNode 0) (.byNode 1) (.obj [])).2
        (.byNode 1) (.byNode 0) (.obj [])).1 = some e2 ∧
      e1 ≠ e2 ∧
      e1 ∈ (addEdge (addEdge gNoEdges (.byNode 0) (.byNode 1) (.obj [])).2
        (.byNode 1) (.byNode 0) (.obj [])).2.edges ∧
      e2 ∈ (addEdge (addEdge gNoEdges (.byNode 0) (.byNode 1) (.obj [])).2
        (.byNode 1) (.byNode 0) (.obj [])).2.edges :=
  ⟨⟨by decide, by decide, rfl, rfl, rfl, by decide⟩,
    c5_amended gNoEdges 0 1 (.obj []) (.obj []) (by decide) (by decide)
      (by decide) rfl rfl rfl (by decide)⟩

/-- C6: `addNode` is idempotent per name: if a first call returned the node
`n1` leaving state `g1`, a second call whose option has the same `name`
value returns exactly that node and that state — it does not grow `nodes`,
and the second option's payload has no effect whatsoever (the option `o2`
beyond its `name` is arbitrary). -/
theorem c6_addNode_idempotent (g : GraphState) (o1 o2 : JSVal) (n1 : Nat)
    (g1 : GraphState) (h1 : addNode g o1 = .ok (n1, g1))
    (hname : jsDotNameE o2 = jsDotNameE o1) :
    addNode g1 o2 = .ok (n1, g1) := by
  cases hno1 : jsDotNameE o1 with
  | error e =>
    rw [addNode, hno1] at h1
    cases h1
  | ok nm =>
    rw [addNode, hno1] at h1
    rw [addNode, hname, hno1]
    dsimp only at h1 ⊢
    cases hmap : jsMapGet g.nodesMap (jsKeyOfPrim nm) with
    | some nid =>
      rw [hmap] at h1
      dsimp only at h1
      cases h1
      rw [hmap]
    | none =>
      rw [hmap] at h1
      dsimp only at h1
      cases h1
      rw [jsMapGet_set_self]

/-- C6 witness: adding "A" twice to a fresh graph — the second call (with an
extra payload field, same name) returns the node 0 and the unchanged state
of the first call. -/
theorem c6_addNode_idempotent_witness :
    addNode (addNodeD (GraphNew false) (nodeObj "A")).2
        (JSVal.obj [("name", .str "A"), ("extra", .num 5)]) =
      .ok (0, (addNodeD (GraphNew false) (nodeObj "A")).2) :=
  c6_addNode_idempotent (GraphNew false) (nodeObj "A")
    (JSVal.obj [("name", .str "A"), ("extra", .num 5)]) 0
    (addNodeD (GraphNew false) (nodeObj "A")).2 rfl rfl

/-- C7: for every graph and live node `nid` of it (present in the
duplicate-free live node sequence), after `removeNode(nid)` the node
sequence no longer contains `nid`, the name index has no entry under the
node's name key, and no edge remaining in the edge sequence has `nid` as
`node1` or `node2`. -/
theorem c7_removeNode (g : GraphState) (nid : Nat)
    (hmem : nid ∈ g.nodes) (hnodup : g.nodes.Nodup) :
    nid ∉ (removeNodeG g (.byNode nid)).nodes ∧
    jsMapGet (removeNodeG g (.byNode nid)).nodesMap (nodeKeyName g nid) =
      none ∧
    ∀ e ∈ (removeNodeG g (.byNode nid)).edges,
      (edgeOf (removeNodeG g (.byNode nid)) e).node1 ≠ nid ∧
      (edgeOf (removeNodeG g (.byNode nid)) e).node2 ≠ nid := by
  rw [removeNodeG_byNode]
  obtain ⟨s1, s2, _, s4⟩ := removeNodeCore_spec g nid
  refine ⟨?_, s2, ?_⟩
  · rw [s1]
    exact not_mem_jsSplice1_indexOf hnodup hmem
  · intro e he
    have hni := s4 e he
    exact ⟨fun hh => hni (Or.inl hh), fun hh => hni (Or.inr hh)⟩

/-- C7 witness: removing node B (id 1) from the triangle `gTri`. -/
theorem c7_removeNode_witness :
    ((1 : Nat) ∈ gTri.nodes ∧ gTri.nodes.Nodup) ∧
    ((1 : Nat) ∉ (removeNodeG gTri (.byNode 1)).nodes ∧
      jsMapGet (removeNodeG gTri (.byNode 1)).nodesMap (nodeKeyName gTri 1) =
        none ∧
      ∀ e ∈ (removeNodeG gTri (.byNode 1)).edges,
        (edgeOf (removeNodeG gTri (.byNode 1)) e).node1 ≠ 1 ∧
        (edgeOf (removeNodeG gTri (.byNode 1)) e).node2 ≠ 1) :=
  ⟨⟨by decide, by decide⟩, c7_removeNode gTri 1 (by decide) (by decide)⟩

/-- C8 counterexample: on the undirected graph `gBA` (edge 0 stored under
key "b-a"), a subsequent successful `addEdge(a, b)` returns the NEW edge 1,
but `getEdge(b, a)` finds the key "b-a" first and returns edge 0 — not
"that edge" as the claim's final clause asserts. -/
theorem c8_counterexample :
    gBA.directed = false ∧
    (addEdge gBA (.byName "a") (.byName "b") (.obj [])).1 = some 1 ∧
    getEdge (addEdge gBA (.byName "a") (.byName "b") (.obj [])).2
      (.byName "b") (.byName "a") = some 0 ∧
    (0 : Nat) ≠ 1 :=
  ⟨rfl, rfl, rfl, by decide⟩

/-- C8 (amended): `getEdge` resolves direction by graph kind — on a
directed graph it returns exactly the pair-index entry under the ordered
key `n1-n2` (absent otherwise, never a reverse edge); on an undirected
graph it returns the `n1-n2` entry, falling back on the `n2-n1` entry; and
after a successful `addEdge(a,b)` on an undirected graph, `getEdge(b,a)`
returns that edge PROVIDED the pair index holds no entry under the swapped
key `b-a` (the original unconditional clause fails on
`c8_counterexample`). -/
theorem c8_getEdge (g : GraphState) (a b : Nat) :
    (g.directed = true →
      getEdge g (.byNode a) (.byNode b) =
        jsMapGet g.edgesMap (pairKey g a b)) ∧
    (g.directed = false →
      getEdge g (.byNode a) (.byNode b) =
        match jsMapGet g.edgesMap (pairKey g a b) with
        | some e => some e
        | none => jsMapGet g.edgesMap (pairKey g b a)) ∧
    (g.directed = false → ∀ (o : JSVal) (e : Nat),
      (addEdge g (.byNode a) (.byNode b) o).1 = some e →
      jsMapGet (addEdge g (.byNode a) (.byNode b) o).2.edgesMap
        (pairKey (addEdge g (.byNode a) (.byNode b) o).2 b a) = none →
      getEdge (addEdge g (.byNode a) (.byNode b) o).2 (.byNode b) (.byNode a)
        = some e) := by
  refine ⟨?_, ?_, ?_⟩
  · intro hd
    unfold getEdge refKeyName
    simp only [hd, if_true]
    rfl
  · intro hd
    unfold getEdge refKeyName
    simp only [hd, Bool.false_eq_true, if_false]
    rfl
  · intro hd o e h1 h2
    cases hm : jsMapGet g.edgesMap (pairKey g a b) with
    | some e0 =>
      have heq := addEdge_byNode_hit g a b o e0 hm
      rw [heq] at h1 h2 ⊢
      dsimp only at h1 h2 ⊢
      cases h1
      unfold getEdge refKeyName
      simp only [hd, Bool.false_eq_true, if_false]
      unfold pairKey at h2 hm
      rw [h2, hm]
    | none =>
      obtain ⟨r1, re, rm, ra, rd, rk⟩ := addEdge_byNode_new g a b o hm
      rw [r1] at h1
      injection h1 with h1e
      unfold getEdge refKeyName
      have hd2 : (addEdge g (.byNode a) (.byNode b) o).2.directed = false :=
        rd.trans hd
      simp only [hd2, Bool.false_eq_true, if_false]
      unfold pairKey at h2
      rw [h2]
      rw [rk a, rk b, rm]
      unfold pairKey
      rw [jsMapGet_set_self]
      rw [h1e]

/-- C8 witness: the three clauses at concrete graphs — the directed
`gDirAB`, the undirected `gAB`, and a fresh undirected two-node graph where
`addEdge(0,1)` creates edge 0 and `getEdge(1,0)` finds it. -/
theorem c8_getEdge_witness :
    (getEdge gDirAB (.byNode 0) (.byNode 1) =
      jsMapGet gDirAB.edgesMap (pairKey gDirAB 0 1)) ∧
    (getEdge gAB (.byNode 0) (.byNode 1) =
      match jsMapGet gAB.edgesMap (pairKey gAB 0 1) with
      | some e => some e
      | none => jsMapGet gAB.edgesMap (pairKey gAB 1 0)) ∧
    getEdge (addEdge gNoEdges (.byNode 0) (.byNode 1) (.obj [])).2
      (.byNode 1) (.byNode 0) = some 0 :=
  ⟨(c8_getEdge gDirAB 0 1).1 rfl,
   (c8_getEdge gAB 0 1).2.1 rfl,
   (c8_getEdge gNoEdges 0 1).2.2 rfl (.obj []) 0 rfl rfl⟩

/-- C9: `filterNode` with a predicate depending only on the node keeps
exactly the nodes satisfying the predicate and passes every node of the
original sequence to the callback exactly once, in order (the cursor-hold
discipline); in particular on a graph with nodes `[a, b, c]` and a
predicate falsy exactly on `b`, the surviving node sequence is `[a, c]` and
no remaining edge touches `b`. -/
theorem c9_filterNode :
    (∀ (g : GraphState) (p : Nat → Bool),
      (filterNode g (fun nid _ => p nid)).1.nodes = g.nodes.filter p ∧
      (filterNode g (fun nid _ => p nid)).2 = g.nodes) ∧
    (∀ (g : GraphState) (a b c : Nat) (p : Nat → Bool),
      g.nodes = [a, b, c] → p a = true → p b = false → p c = true →
      (filterNode g (fun nid _ => p nid)).1.nodes = [a, c] ∧
      ∀ e ∈ (filterNode g (fun nid _ => p nid)).1.edges,
        (edgeOf (filterNode g (fun nid _ => p nid)).1 e).node1 ≠ b ∧
        (edgeOf (filterNode g (fun nid _ => p nid)).1 e).node2 ≠ b) := by
  constructor
  · intro g p
    obtain ⟨c1, c2⟩ := filterNodeGo_spec p g.nodes.length g 0 g.nodes.length []
      (by omega) rfl (by simp)
    constructor
    · unfold filterNode
      rw [c1]
      simp
    · unfold filterNode
      rw [c2]
      simp
  · intro g a b c p hn hpa hpb hpc
    have hab : ¬ (a = b) := by
      intro hh
      rw [hh, hpb] at hpa
      cases hpa
    have hidx : jsIndexOf b g.nodes = ((1 : Nat) : Int) := by
      rw [hn]
      simp [jsIndexOf, hab]
    have hgn : (removeNodeG g (.byNode b)).nodes = [a, c] := by
      rw [removeNodeG_byNode, (removeNodeCore_spec g b).1, hidx,
        jsSplice1_natCast, hn]
      rfl
    have hlen3 : g.nodes.length = 3 := by rw [hn]; rfl
    have s1 : filterNodeGo (fun nid _ => p nid) g 0 3 [] =
        filterNodeGo (fun nid _ => p nid) g 1 3 [a] := by
      rw [filterNodeGo, if_pos (by norm_num : (0:Nat) < 3),
        show g.nodes.get? 0 = some a from by rw [hn]; rfl]
      dsimp only
      rw [if_pos hpa]
      simp
    have s2 : filterNodeGo (fun nid _ => p nid) g 1 3 [a] =
        filterNodeGo (fun nid _ => p nid) (removeNodeG g (.byNode b)) 1 2
          [a, b] := by
      rw [filterNodeGo, if_pos (by norm_num : (1:Nat) < 3),
        show g.nodes.get? 1 = some b from by rw [hn]; rfl]
      dsimp only
      rw [if_neg (by simp [hpb])]
      simp
    have s3 : filterNodeGo (fun nid _ => p nid) (removeNodeG g (.byNode b)) 1 2
        [a, b] =
        filterNodeGo (fun nid _ => p nid) (removeNodeG g (.byNode b)) 2 2
          [a, b, c] := by
      rw [filterNodeGo, if_pos (by norm_num : (1:Nat) < 2),
        show (removeNodeG g (.byNode b)).nodes.get? 1 = some c from by
          rw [hgn]; rfl]
      dsimp only
      rw [if_pos hpc]
      simp
    have s4 : filterNodeGo (fun nid _ => p nid) (removeNodeG g (.byNode b)) 2 2
        [a, b, c] = (removeNodeG g (.byNode b), [a, b, c]) := by
      rw [filterNodeGo, if_neg (by norm_num : ¬ ((2:Nat) < 2))]
    have hfin : filterNode g (fun nid _ => p nid) =
        (removeNodeG g (.byNode b), [a, b, c]) := by
      unfold filterNode
      rw [hlen3, s1, s2, s3, s4]
    refine ⟨?_, ?_⟩
    · rw [hfin]
      exact hgn
    · intro e he
      rw [hfin] at he ⊢
      rw [removeNodeG_byNode] at he ⊢
      have hni := (removeNodeCore_spec g b).2.2.2 e he
      exact ⟨fun hh => hni (Or.inl hh), fun hh => hni (Or.inr hh)⟩

/-- C9 witness: the general clauses at the triangle `gTri` with the
predicate keeping every node but id 1 (node B). -/
theorem c9_filterNode_witness :
    (gTri.nodes = [0, 1, 2] ∧ ((fun n => n != 1) 0 : Bool) = true ∧
      ((fun n => n != 1) 1 : Bool) = false ∧
      ((fun n => n != 1) 2 : Bool) = true) ∧
    ((filterNode gTri (fun nid _ => nid != 1)).1.nodes =
      gTri.nodes.filter (fun n => n != 1) ∧
     (filterNode gTri (fun nid _ => nid != 1)).2 = gTri.nodes) ∧
    ((filterNode gTri (fun nid _ => nid != 1)).1.nodes = [0, 2] ∧
      ∀ e ∈ (filterNode gTri (fun nid _ => nid != 1)).1.edges,
        (edgeOf (filterNode gTri (fun nid _ => nid != 1)).1 e).node1 ≠ 1 ∧
        (edgeOf (filterNode gTri (fun nid _ => nid != 1)).1 e).node2 ≠ 1) :=
  ⟨⟨rfl, rfl, rfl, rfl⟩,
   c9_filterNode.1 gTri (fun n => n != 1),
   c9_filterNode.2 gTri 0 1 2 (fun n => n != 1) rfl rfl rfl rfl⟩

/-- C10: a concrete witness of the implicit pair-key collision: in `gDash`
the distinct endpoint pairs (node 0 "a-b", node 1 "c") and (node 2 "a",
node 3 "b-c") share the key "a-b-c"; the graph holds edge 0 between nodes 0
and 1, and `addEdge` for the second pair returns that stored edge (the edge
sequence does not grow), while `getEdge` on either pair returns the same
edge 0. -/
theorem c10_pair_key_collision :
    nodeKeyName gDash 0 ≠ nodeKeyName gDash 2 ∧
    nodeKeyName gDash 1 ≠ nodeKeyName gDash 3 ∧
    pairKey gDash 0 1 = pairKey gDash 2 3 ∧
    gDash.edges = [0] ∧
    (edgeOf gDash 0).node1 = 0 ∧
    (edgeOf gDash 0).node2 = 1 ∧
    (addEdge gDash (.byNode 2) (.byNode 3) (.obj [])).1 = some 0 ∧
    (addEdge gDash (.byNode 2) (.byNode 3) (.obj [])).2.edges = [0] ∧
    getEdge gDash (.byNode 0) (.byNode 1) = some 0 ∧
    getEdge gDash (.byNode 2) (.byNode 3) = some 0 :=
  ⟨by decide, by decide, rfl, rfl, rfl, rfl, rfl, rfl, rfl, rfl⟩
